import Mathlib

/-!
# Verification of the semantic job-matching engine

Shallow embedding of the matching/ranking subsystem of this repository:

* `backend/nlp_service/semantic_job_matcher.py` — class `SemanticJobMatcher`
  (profile/job text projection, fallback keyword similarity, bonus scoring,
  ranking `match_jobs_to_user`, query bonus `_calculate_query_bonus`,
  profile-text cache `get_user_profile_text`).
* `backend/job_scraper/intelligent_reddit_scraper.py` — `_calculate_context_bonus`.

Modelling conventions:

* Floating-point scores are modelled as rationals (`ℚ`).  Every constant in the
  source is an exact decimal (0.05, 0.1, 0.3, …) and every comparison in the
  verified claims is robust to this choice (the Python `min(_, c)` clamps make
  the bounds hold in binary floating point as well).
* Python dicts for profiles and jobs are modelled as structures holding exactly
  the fields the matcher reads.  `dict.get(key, default)` patterns are modelled
  by total fields (the scraper always populates them); where a default matters
  to a claim it is noted at the definition.
* The Neo4j profile store and the optional sentence-transformer model are
  external collaborators: they enter the model as an opaque lookup function
  `String → Option Profile` and an optional embedding function.
* A raised Python exception is modelled as `none` in an `Option` result.
* Python's stable `list.sort(key=..., reverse=True)` is modelled by a stable
  descending insertion sort (`sortByFinalDesc`); a stable descending sort is
  uniquely determined by the key, so the two agree as functions.
-/

namespace SJM

/-- A user profile as returned by `ResumeNeo4jStorage.get_user_profile`.
Only the fields read by the matcher/scraper are modelled; of the skill /
domain / project sub-dicts only the `'skill'` / `'domain'` / `'title'`
values are ever consumed, so they are modelled as plain strings. -/
structure Profile where
  name : String
  education_level : String
  field_of_study : String
  experience_level : String
  skills : List String
  domains : List String
  projects : List String
  deriving DecidableEq

/-- A scraped job posting, with the fields the matcher reads
(`title`, `author`, `content`, `experience_level`, `location`, `remote`,
`skills_mentioned`, `created_utc`).  `created_utc = 0` models the Python
falsy default `job.get('created_utc', 0)`. -/
structure Job where
  title : String
  author : String
  content : String
  experience_level : String
  location : String
  remote : Bool
  skills_mentioned : List String
  created_utc : ℚ
  deriving DecidableEq

/-- One entry of the ranked output of `match_jobs_to_user`: the Python code
builds `{**job, 'similarity_score': …, 'bonus_score': …, 'final_score': …,
'match_explanation': …}`, i.e. the original job plus the four score fields. -/
structure MatchResult where
  job : Job
  similarity_score : ℚ
  bonus_score : ℚ
  final_score : ℚ
  match_explanation : String
  deriving DecidableEq

/-- Python `str.lower()`, modelled per character (`Char.toLower` agrees with
it on the ASCII range, which covers every fixed keyword the matcher
compares against). -/
def lowerStr (s : String) : String := String.mk (s.data.map Char.toLower)

/-- Helper of `splitWs`: scan the characters, accumulating the current token
in reverse; whitespace closes the current token, and runs of whitespace
never produce empty tokens. -/
def splitWsAux : List Char → List Char → List String
  | [], acc => if acc = [] then [] else [String.mk acc.reverse]
  | c :: cs, acc =>
    if c.isWhitespace then
      if acc = [] then splitWsAux cs []
      else String.mk acc.reverse :: splitWsAux cs []
    else splitWsAux cs (c :: acc)

/-- Python `str.split()` with no separator: split on whitespace runs,
never yielding empty tokens. -/
def splitWs (s : String) : List String := splitWsAux s.data []

/-- Is the first character list a prefix of the second? -/
def isPrefixChars : List Char → List Char → Bool
  | [], _ => true
  | _ :: _, [] => false
  | a :: as, b :: bs => a == b && isPrefixChars as bs

/-- Does `needle` occur as a contiguous run somewhere in `haystack`? -/
def substrOccursAux (needle : List Char) : List Char → Bool
  | [] => isPrefixChars needle []
  | c :: cs => isPrefixChars needle (c :: cs) || substrOccursAux needle cs

/-- Python's substring test `needle in haystack` (for `str`); the empty
needle is always contained. -/
def substrOccurs (needle haystack : String) : Bool :=
  substrOccursAux needle.data haystack.data

/-- Python `str.strip()`: drop leading and trailing whitespace. -/
def stripStr (s : String) : String :=
  String.mk (((s.data.dropWhile Char.isWhitespace).reverse.dropWhile
    Char.isWhitespace).reverse)

/-- `content.replace('\n', ' ')` — a single-character pattern, so a
per-character map is exact. -/
def replaceNewlines (s : String) : String :=
  String.mk (s.data.map (fun c => if c = '\n' then ' ' else c))

/-- `SemanticJobMatcher._profile_to_text` (semantic_job_matcher.py lines 77-111). -/
def profile_to_text (profile : Profile) : String :=
  let text_parts := [profile.name ++ " is a " ++ profile.experience_level ++ " level professional"]
    ++ (if profile.education_level ≠ "" ∧ profile.field_of_study ≠ "" then
          ["with " ++ profile.education_level ++ " degree in " ++ profile.field_of_study]
        else [])
    ++ (if profile.skills ≠ [] then
          ["skilled in " ++ String.intercalate ", " (profile.skills.take 15)]
        else [])
    ++ (if profile.domains ≠ [] then
          ["with expertise in " ++ String.intercalate ", " profile.domains]
        else [])
    ++ (if profile.projects ≠ [] then
          ["having worked on projects like " ++ String.intercalate ", " (profile.projects.take 3)]
        else [])
  String.intercalate ". " text_parts ++ "."

/-- `SemanticJobMatcher._job_to_text` (semantic_job_matcher.py lines 169-208). -/
def job_to_text (job : Job) : String :=
  let text_parts := ["Job: " ++ job.title]
    ++ (if job.author ≠ "" ∧ job.author ≠ "[deleted]" then ["at " ++ job.author] else [])
    ++ (if job.content ≠ "" then [(stripStr (replaceNewlines job.content)).take 500] else [])
    ++ (if job.experience_level ≠ "" then ["Experience level: " ++ job.experience_level] else [])
    ++ (if job.remote = true then ["Remote work available"]
        else if job.location ≠ "" then ["Location: " ++ job.location] else [])
    ++ (if job.skills_mentioned ≠ [] then
          ["Skills: " ++ String.intercalate ", " job.skills_mentioned]
        else [])
  String.intercalate ". " text_parts

/-- Stop-word list of `_calculate_keyword_similarity` (lines 234-235). -/
def stop_words : List String :=
  ["the", "and", "or", "but", "in", "on", "at", "to", "for", "of", "with", "by",
   "is", "are", "was", "were", "be", "been", "have", "has", "had", "do", "does",
   "did", "will", "would", "could", "should"]

/-- `set(text.lower().split()) - stop_words`: whitespace tokenization of the
lowercased text, as a set, minus the stop words (lines 231-238). -/
def text_tokens (s : String) : Finset String :=
  (splitWs (lowerStr s)).toFinset \ stop_words.toFinset

/-- `SemanticJobMatcher._calculate_keyword_similarity` (lines 227-244), the
fallback similarity used when no embedding model is available. -/
def calculate_keyword_similarity (profile_text job_text : String) : ℚ :=
  let profile_words := text_tokens profile_text
  let job_words := text_tokens job_text
  let intersection := (profile_words ∩ job_words).card
  let union := (profile_words ∪ job_words).card
  if 0 < union then (intersection : ℚ) / (union : ℚ) else 0

/-- Spec-side definition, from spec §4.2: the Jaccard coefficient
`|A ∩ B| / |A ∪ B|` of two finite token sets, `0` when the union is empty. -/
def jaccardCoeff (A B : Finset String) : ℚ :=
  if A ∪ B = ∅ then 0 else ((A ∩ B).card : ℚ) / ((A ∪ B).card : ℚ)

/-- The `domain_keywords` table of `_calculate_bonus_score` (lines 279-283). -/
def domain_keywords (domain : String) : List String :=
  if domain = "healthcare" then ["healthcare", "medical", "clinical", "patient", "hospital"]
  else if domain = "ai_ml" then ["machine learning", "ml", "ai", "neural", "deep learning", "nlp"]
  else if domain = "web_dev" then ["web", "frontend", "backend", "api", "javascript", "react"]
  else []

/-- `SemanticJobMatcher._calculate_bonus_score` (lines 246-291).  The source
re-reads the profile from storage (not from the cache) for every job; `now`
stands for `datetime.now().timestamp()`.  Sub-bonuses: +0.1 experience-level
match, +0.05 remote (unconditionally on the profile level), +0.03 recency
(< 7 days, only when `created_utc` is truthy), +0.08 first matching domain
(`break` after the first hit); total capped at 0.3. -/
def calculate_bonus_score (storage : String → Option Profile) (user_email : String)
    (job : Job) (now : ℚ) : ℚ :=
  match storage user_email with
  | none => 0
  | some profile =>
    let b_exp : ℚ := if profile.experience_level = job.experience_level then 1/10 else 0
    let b_remote : ℚ := if job.remote = true then 1/20 else 0
    let b_recent : ℚ :=
      if job.created_utc ≠ 0 ∧ (now - job.created_utc) / (24 * 3600) < 7 then 3/100 else 0
    let joined_skills := lowerStr (String.intercalate " " job.skills_mentioned)
    let b_domain : ℚ :=
      if profile.domains.any
          (fun d => (domain_keywords d).any (fun kw => substrOccurs kw joined_skills)) then
        2/25
      else 0
    min (b_exp + b_remote + b_recent + b_domain) (3/10)

/-- `IntelligentRedditScraper._calculate_context_bonus`
(intelligent_reddit_scraper.py lines 375-408).  Sub-bonuses: +0.05 experience
match, +0.03 remote only for entry-level profiles, +0.05 per overlapping
lowercased skill capped at 0.15, +0.08 per profile domain occurring as a
substring of title+content capped at 0.16; total capped at 0.3. -/
def calculate_context_bonus (job_data : Job) (user_profile : Profile) : ℚ :=
  let b_exp : ℚ := if user_profile.experience_level = job_data.experience_level then 1/20 else 0
  let b_remote : ℚ :=
    if job_data.remote = true ∧ user_profile.experience_level = "entry" then 3/100 else 0
  let user_skills := (user_profile.skills.map lowerStr).toFinset
  let job_skills := (job_data.skills_mentioned.map lowerStr).toFinset
  let skill_overlap := (user_skills ∩ job_skills).card
  let b_skill : ℚ := if 0 < skill_overlap then min ((skill_overlap : ℚ) * (1/20)) (3/20) else 0
  let job_text := lowerStr (job_data.title ++ " " ++ job_data.content)
  let user_domains := (user_profile.domains.map lowerStr).toFinset
  let domain_matches := (user_domains.filter (fun d => substrOccurs d job_text = true)).card
  let b_dom : ℚ := if 0 < domain_matches then min ((domain_matches : ℚ) * (2/25)) (4/25) else 0
  min (b_exp + b_remote + b_skill + b_dom) (3/10)

/-- Stop list used by `_explain_match` when picking "meaningful" common words
(line 314). -/
def explain_stoplist : List String :=
  ["with", "have", "been", "this", "that", "they", "them", "were", "will", "work"]

/-- `SemanticJobMatcher._explain_match` (lines 293-319).  The source iterates a
Python `set` whose order is unspecified; the model fixes one deterministic
order (first occurrence in the profile text).  None of the verified claims
depends on this field. -/
def explain_match (profile_text job_text : String) (score : ℚ) : String :=
  let label :=
    if (7 : ℚ)/10 < score then "Excellent match"
    else if (1 : ℚ)/2 < score then "Good match"
    else if (3 : ℚ)/10 < score then "Moderate match"
    else "Limited match"
  let profile_word_list := (splitWs (lowerStr profile_text)).dedup
  let job_words := (splitWs (lowerStr job_text)).toFinset
  let common_words := profile_word_list.filter (fun w => w ∈ job_words)
  let meaningful_words := common_words.filter (fun w => 3 < w.length ∧ w ∉ explain_stoplist)
  if meaningful_words = [] then label
  else label ++ ". " ++ "Common keywords: " ++ String.intercalate ", " (meaningful_words.take 5)

/-- The keyword table of `_calculate_query_bonus` (lines 385-395), in source
(= Python dict insertion) order. -/
def query_keywords : List (String × ℚ) :=
  [("intern", 1/10), ("entry", 1/10), ("junior", 1/10), ("remote", 1/20),
   ("healthcare", 2/25), ("ai", 2/25), ("ml", 2/25), ("data science", 1/10),
   ("python", 1/20)]

/-- The accumulation loop of `_calculate_query_bonus` (lines 397-399): each
keyword adds its points exactly when it occurs as a substring in both the
lowercased query and the lowercased job text. -/
def query_bonus_fold (table : List (String × ℚ)) (query_lower job_text : String)
    (bonus : ℚ) : ℚ :=
  table.foldl
    (fun b kp =>
      if substrOccurs kp.1 query_lower = true ∧ substrOccurs kp.1 job_text = true then b + kp.2
      else b)
    bonus

/-- `SemanticJobMatcher._calculate_query_bonus` (lines 377-401): keyword
bonuses summed, capped at 0.25. -/
def calculate_query_bonus (query : String) (job : Job) : ℚ :=
  min (query_bonus_fold query_keywords (lowerStr query) (lowerStr (job_to_text job)) 0) (1/4)

/-- The mutable state of a `SemanticJobMatcher` instance: the optional
sentence-transformer model (`self.model`, opaque embedding function when
loaded), the Neo4j-backed profile store (`self.resume_storage`, opaque
lookup), and the in-process profile-text cache
(`self.user_profile_cache`, a dict modelled as an association list with
most-recent insertion first). -/
structure Matcher where
  model : Option (String → String → ℚ)
  storage : String → Option Profile
  user_profile_cache : List (String × String)

/-- Lookup in the profile-text cache (`user_email in self.user_profile_cache`
followed by indexing).  A dict holds at most one entry per key; insertion
only ever happens on a miss, so first-match lookup models it exactly. -/
def cacheLookup : List (String × String) → String → Option String
  | [], _ => none
  | (k, v) :: rest, key => if k = key then some v else cacheLookup rest key

/-- `SemanticJobMatcher.get_user_profile_text` (lines 56-75): return the
cached projection if present; otherwise read the profile from storage
(returning `none` when the store has no profile), project it, and cache the
result.  The updated matcher state is returned alongside. -/
def get_user_profile_text (m : Matcher) (user_email : String) : Option String × Matcher :=
  match cacheLookup m.user_profile_cache user_email with
  | some cached => (some cached, m)
  | none =>
    match m.storage user_email with
    | none => (none, m)
    | some profile =>
      let profile_text := profile_to_text profile
      (some profile_text,
       { m with user_profile_cache := (user_email, profile_text) :: m.user_profile_cache })

/-- The loop body of `match_jobs_to_user` (lines 138-160): project the job,
compute similarity (embedding model when loaded, keyword fallback
otherwise), compute the bonus (which re-reads the profile from storage),
and assemble the result record. -/
def score_job (m : Matcher) (user_profile_text : String) (user_email : String) (now : ℚ)
    (job : Job) : MatchResult :=
  let job_text := job_to_text job
  let similarity_score :=
    match m.model with
    | some embed => embed user_profile_text job_text
    | none => calculate_keyword_similarity user_profile_text job_text
  let bonus_score := calculate_bonus_score m.storage user_email job now
  let final_score := similarity_score + bonus_score
  { job := job, similarity_score := similarity_score, bonus_score := bonus_score,
    final_score := final_score,
    match_explanation := explain_match user_profile_text job_text final_score }

/-- Stable descending insertion of one result: `x` is placed before the first
element whose `final_score` does not exceed `x`'s, so earlier-input elements
stay ahead of equal-scoring later ones. -/
def insertDesc (x : MatchResult) : List MatchResult → List MatchResult
  | [] => [x]
  | y :: ys => if y.final_score ≤ x.final_score then x :: y :: ys else y :: insertDesc x ys

/-- `job_matches.sort(key=lambda x: x['final_score'], reverse=True)`
(line 163): Python's sort is stable, and `reverse=True` keeps stability, so
the call is exactly the stable descending sort by `final_score`, which this
insertion sort implements. -/
def sortByFinalDesc : List MatchResult → List MatchResult
  | [] => []
  | x :: xs => insertDesc x (sortByFinalDesc xs)

/-- `SemanticJobMatcher.match_jobs_to_user` (lines 113-167).  A missing
profile logs an error and returns the empty list (line 131).  Otherwise every
job is scored, the list is sorted descending by `final_score`, and the first
`top_k` entries are returned.  Before returning, line 165 evaluates
`job_matches[0]['final_score']` inside the success-log f-string; when the
candidate list is empty this raises `IndexError`, modelled as `none`.
`now` stands for `datetime.now().timestamp()`. -/
def match_jobs_to_user (m : Matcher) (user_email : String) (jobs : List Job) (top_k : Nat)
    (now : ℚ) : Option (List MatchResult) × Matcher :=
  let looked_up := get_user_profile_text m user_email
  let m1 := looked_up.2
  match looked_up.1 with
  | none => (some [], m1)
  | some user_profile_text =>
    let job_matches := jobs.map (score_job m1 user_profile_text user_email now)
    let sorted := sortByFinalDesc job_matches
    if sorted = [] then (none, m1)
    else (some (sorted.take top_k), m1)

/-! ## Concrete fixtures used in counterexamples and witnesses -/

/-- A minimal stored profile: entry level, no skills/domains/projects. -/
def profile0 : Profile :=
  { name := "U", education_level := "", field_of_study := "", experience_level := "entry",
    skills := [], domains := [], projects := [] }

/-- A minimal job posting. -/
def job0 : Job :=
  { title := "x", author := "", content := "", experience_level := "", location := "",
    remote := false, skills_mentioned := [], created_utc := 0 }

/-- A matcher (fallback mode) whose profile store has no profiles. -/
def mMissing : Matcher :=
  { model := none, storage := fun _ => none, user_profile_cache := [] }

/-- A matcher (fallback mode) whose profile store returns `profile0` for
every identifier. -/
def mPresent : Matcher :=
  { model := none, storage := fun _ => some profile0, user_profile_cache := [] }

/-- The projected text of `profile0`. -/
def profile0_text : String := profile_to_text profile0

/-- `mPresent` after its cache has been populated for user `"u"`. -/
def mPresentCached : Matcher :=
  { mPresent with user_profile_cache := [("u", profile0_text)] }

/-- The single result record produced when `mPresent` ranks `[job0]` for
user `"u"`. -/
def result0 : MatchResult := score_job mPresentCached profile0_text "u" 0 job0

/-- An entry-level profile with the given skills and nothing else that could
earn a bonus (no domains). -/
def skillProfile (skills : List String) : Profile :=
  { name := "U", education_level := "", field_of_study := "", experience_level := "entry",
    skills := skills, domains := [], projects := [] }

/-- A non-remote senior job (so neither the experience-match nor the remote
sub-bonus can fire against `skillProfile`) carrying the given skills. -/
def skillJob (skills_mentioned : List String) : Job :=
  { title := "x", author := "", content := "", experience_level := "senior", location := "",
    remote := false, skills_mentioned := skills_mentioned, created_utc := 0 }

/-- A profile with the given experience level and no skills or domains. -/
def levelProfile (level : String) : Profile :=
  { name := "U", education_level := "", field_of_study := "", experience_level := level,
    skills := [], domains := [], projects := [] }

/-- A job with the given remote flag and experience level and no skills. -/
def remoteJob (remote : Bool) (level : String) : Job :=
  { title := "x", author := "", content := "", experience_level := level, location := "",
    remote := remote, skills_mentioned := [], created_utc := 0 }

/-! ## Properties of the stable descending sort -/

theorem insertDesc_perm (x : MatchResult) (l : List MatchResult) :
    List.Perm (insertDesc x l) (x :: l) := by
  induction l with
  | nil => simp [insertDesc]
  | cons y ys ih =>
    by_cases hc : y.final_score ≤ x.final_score
    · simp [insertDesc, hc]
    · simp only [insertDesc, if_neg hc]
      exact (List.Perm.cons y ih).trans (List.Perm.swap x y ys)

theorem sortByFinalDesc_perm (l : List MatchResult) :
    List.Perm (sortByFinalDesc l) l := by
  induction l with
  | nil => simp [sortByFinalDesc]
  | cons x xs ih =>
    exact (insertDesc_perm x (sortByFinalDesc xs)).trans (List.Perm.cons x ih)

theorem insertDesc_pairwise (x : MatchResult) (l : List MatchResult)
    (h : l.Pairwise (fun a b => b.final_score ≤ a.final_score)) :
    (insertDesc x l).Pairwise (fun a b => b.final_score ≤ a.final_score) := by
  induction l with
  | nil => simp [insertDesc]
  | cons y ys ih =>
    rcases List.pairwise_cons.mp h with ⟨hy, hys⟩
    by_cases hc : y.final_score ≤ x.final_score
    · simp only [insertDesc, if_pos hc]
      refine List.pairwise_cons.mpr ⟨?_, h⟩
      intro z hz
      rcases List.mem_cons.mp hz with rfl | hz
      · exact hc
      · exact le_trans (hy z hz) hc
    · simp only [insertDesc, if_neg hc]
      refine List.pairwise_cons.mpr ⟨?_, ih hys⟩
      intro z hz
      rcases List.mem_cons.mp ((insertDesc_perm x ys).mem_iff.mp hz) with rfl | hz
      · exact le_of_not_le hc
      · exact hy z hz

theorem sortByFinalDesc_pairwise (l : List MatchResult) :
    (sortByFinalDesc l).Pairwise (fun a b => b.final_score ≤ a.final_score) := by
  induction l with
  | nil => simp [sortByFinalDesc]
  | cons x xs ih => exact insertDesc_pairwise x _ ih

theorem insertDesc_filter (x : MatchResult) (l : List MatchResult) (s : ℚ) :
    (insertDesc x l).filter (fun r => r.final_score = s)
      = if x.final_score = s then x :: l.filter (fun r => r.final_score = s)
        else l.filter (fun r => r.final_score = s) := by
  induction l with
  | nil =>
    by_cases hx : x.final_score = s <;> simp [insertDesc, List.filter_cons, hx]
  | cons y ys ih =>
    by_cases hc : y.final_score ≤ x.final_score
    · rw [insertDesc, if_pos hc]
      by_cases hx : x.final_score = s <;> simp [List.filter_cons, hx]
    · simp only [insertDesc, if_neg hc]
      by_cases hx : x.final_score = s
      · have hy : ¬ y.final_score = s := by
          intro hy
          exact hc (le_of_eq (hy.trans hx.symm))
        simp [List.filter_cons, hy, ih, hx]
      · simp [List.filter_cons, ih, hx]

theorem sortByFinalDesc_filter_stable (l : List MatchResult) (s : ℚ) :
    (sortByFinalDesc l).filter (fun r => r.final_score = s)
      = l.filter (fun r => r.final_score = s) := by
  induction l with
  | nil => rfl
  | cons x xs ih =>
    rw [sortByFinalDesc, insertDesc_filter]
    by_cases hx : x.final_score = s <;> simp [List.filter_cons, hx, ih]

/-! ## C1 — missing profile is not surfaced distinctly -/

/-- C1 counterexample: the claim says a not-found profile lookup yields a
result distinguishable from a successful empty ranked list, for every
candidate list and top-k.  In the code (`match_jobs_to_user` line 131) a
missing profile returns the plain empty list: ranking one candidate against
the storage with no profiles returns exactly the same value (`some []`) that
a successful ranking of one candidate with `top_k = 0` returns, so the two
are not distinguishable by the caller. -/
theorem missing_profile_output_equals_successful_empty_output :
    (match_jobs_to_user mMissing "u" [job0] 5 0).1 = some []
      ∧ (match_jobs_to_user mPresent "u" [job0] 0 0).1 = some [] :=
  ⟨rfl, by decide⟩

/-- C1 amended: when the upstream profile lookup returns not-found (and the
identifier is not in the profile-text cache), `match_jobs_to_user` logs an
error and returns an empty list — a value not distinguishable from a
successful empty ranked list. -/
theorem missing_profile_yields_empty_list (m : Matcher) (user_email : String)
    (jobs : List Job) (top_k : Nat) (now : ℚ)
    (hc : cacheLookup m.user_profile_cache user_email = none)
    (hs : m.storage user_email = none) :
    (match_jobs_to_user m user_email jobs top_k now).1 = some [] := by
  simp [match_jobs_to_user, get_user_profile_text, hc, hs]

theorem missing_profile_yields_empty_list_witness :
    cacheLookup mMissing.user_profile_cache "w" = none
      ∧ mMissing.storage "w" = none
      ∧ (match_jobs_to_user mMissing "w" [job0, job0] 3 0).1 = some [] :=
  ⟨rfl, rfl, missing_profile_yields_empty_list mMissing "w" [job0, job0] 3 0 rfl rfl⟩

/-! ## C2 — empty candidate list crashes instead of returning `[]` -/

/-- C2 (code bug): with an existing profile and an empty candidate list the
claim (and spec §7 EmptyCandidateList) requires a successful empty ranked
list, but `match_jobs_to_user` evaluates `job_matches[0]['final_score']` in
its success-log f-string (line 165), which raises `IndexError` when no
candidates were supplied.  The model returns `none` (an escaped exception)
at that input. -/
theorem empty_candidate_list_raises :
    (match_jobs_to_user mPresent "u" [] 10 0).1 = none := rfl

/-! ## C9 — the profile-text cache is never invalidated -/

/-- C9: once `get_user_profile_text` has returned a projected profile text
for an identifier, every later call with the same identifier returns that
identical cached string with unchanged matcher state, without consulting the
profile store — even if the stored profile has changed meanwhile (the second
call's storage is arbitrary: the cache is never invalidated). -/
theorem profile_text_cache_persistent (m : Matcher) (user_email t : String) (m1 : Matcher)
    (h : get_user_profile_text m user_email = (some t, m1))
    (storage2 : String → Option Profile) :
    get_user_profile_text { m1 with storage := storage2 } user_email
      = (some t, { m1 with storage := storage2 }) := by
  have hl : cacheLookup m1.user_profile_cache user_email = some t := by
    unfold get_user_profile_text at h
    rcases hc : cacheLookup m.user_profile_cache user_email with _ | v
    · rw [hc] at h
      rcases hs : m.storage user_email with _ | p
      · rw [hs] at h
        simp at h
      · rw [hs] at h
        simp only [Prod.mk.injEq, Option.some.injEq] at h
        obtain ⟨h1, h2⟩ := h
        subst h2
        simp [cacheLookup, h1]
    · rw [hc] at h
      simp only [Prod.mk.injEq, Option.some.injEq] at h
      obtain ⟨h1, h2⟩ := h
      subst h2
      rw [hc, h1]
  unfold get_user_profile_text
  simp only []
  rw [show ({ m1 with storage := storage2 } : Matcher).user_profile_cache
        = m1.user_profile_cache from rfl, hl]

theorem profile_text_cache_persistent_witness :
    get_user_profile_text { mPresentCached with storage := fun _ => none } "u"
      = (some profile0_text, { mPresentCached with storage := fun _ => none }) :=
  profile_text_cache_persistent mPresent "u" profile0_text mPresentCached rfl (fun _ => none)

/-! ## C3 — output sorted descending by final score, ties in input order -/

/-- C3: the sort used by `match_jobs_to_user` is descending by `final_score`
and stable — every adjacent pair of a sorted list is non-increasing, and the
elements of any given final score appear in exactly their original order
(no secondary key); consequently every ranked list the operation returns is
sorted descending by `final_score`. -/
theorem ranking_sorted_desc_and_stable :
    (∀ l : List MatchResult,
        (sortByFinalDesc l).Pairwise (fun a b => b.final_score ≤ a.final_score)
          ∧ ∀ s : ℚ, (sortByFinalDesc l).filter (fun r => r.final_score = s)
              = l.filter (fun r => r.final_score = s))
      ∧ (∀ (m : Matcher) (user_email : String) (jobs : List Job) (top_k : Nat) (now : ℚ)
          (res : List MatchResult),
          (match_jobs_to_user m user_email jobs top_k now).1 = some res →
          res.Pairwise (fun a b => b.final_score ≤ a.final_score)) := by
  constructor
  · intro l
    exact ⟨sortByFinalDesc_pairwise l, fun s => sortByFinalDesc_filter_stable l s⟩
  · intro m user_email jobs top_k now res h
    unfold match_jobs_to_user at h
    simp only [] at h
    split at h
    · simp only [Option.some.injEq] at h
      subst h
      exact List.Pairwise.nil
    · split at h
      · simp at h
      · simp only [Option.some.injEq] at h
        subst h
        exact List.Pairwise.sublist (List.take_sublist _ _) (sortByFinalDesc_pairwise _)

theorem ranking_sorted_desc_and_stable_witness :
    ([result0] : List MatchResult).Pairwise (fun a b => b.final_score ≤ a.final_score) :=
  ranking_sorted_desc_and_stable.2 mPresent "u" [job0] 5 0 [result0] rfl

/-! ## C4 — top-k size bound, provenance, nothing dropped before scoring -/

/-- C4: every ranked list `res` returned by `match_jobs_to_user` has at most
`min top_k jobs.length` entries; its entries are drawn from the supplied
candidates without duplication or fabrication (the underlying jobs of `res`
are a sub-permutation of `jobs`); and no candidate is dropped before
scoring — for any matcher state and profile text, the fully scored and
sorted list (before the top-k truncation) carries exactly the supplied
candidates, as a permutation. -/
theorem ranking_topk_bounds_and_provenance (m : Matcher) (user_email : String)
    (jobs : List Job) (top_k : Nat) (now : ℚ) (res : List MatchResult)
    (h : (match_jobs_to_user m user_email jobs top_k now).1 = some res) :
    res.length ≤ min top_k jobs.length
      ∧ List.Subperm (res.map MatchResult.job) jobs
      ∧ ∀ (mm : Matcher) (t : String),
          List.Perm
            ((sortByFinalDesc (jobs.map (score_job mm t user_email now))).map MatchResult.job)
            jobs := by
  have hfull : ∀ (mm : Matcher) (t : String),
      List.Perm
        ((sortByFinalDesc (jobs.map (score_job mm t user_email now))).map MatchResult.job)
        jobs := by
    intro mm t
    have h1 := (sortByFinalDesc_perm (jobs.map (score_job mm t user_email now))).map
      MatchResult.job
    have h2 : (jobs.map (score_job mm t user_email now)).map MatchResult.job = jobs := by
      rw [List.map_map]
      have hcomp : MatchResult.job ∘ score_job mm t user_email now = id :=
        funext fun _ => rfl
      rw [hcomp, List.map_id]
    rw [h2] at h1
    exact h1
  unfold match_jobs_to_user at h
  simp only [] at h
  split at h
  · simp only [Option.some.injEq] at h
    subst h
    exact ⟨by simp, by simp, hfull⟩
  · rename_i t _
    split at h
    · simp at h
    · simp only [Option.some.injEq] at h
      subst h
      refine ⟨?_, ?_, hfull⟩
      · rw [List.length_take, (sortByFinalDesc_perm _).length_eq, List.length_map]
      · refine (List.Sublist.subperm
          (List.Sublist.map MatchResult.job (List.take_sublist _ _))).trans ?_
        exact List.Perm.subperm (hfull _ t)

theorem ranking_topk_bounds_and_provenance_witness :
    ([result0] : List MatchResult).length ≤ min 5 [job0].length
      ∧ List.Subperm (([result0] : List MatchResult).map MatchResult.job) [job0]
      ∧ ∀ (mm : Matcher) (t : String),
          List.Perm
            ((sortByFinalDesc ([job0].map (score_job mm t "u" 0))).map MatchResult.job)
            [job0] :=
  ranking_topk_bounds_and_provenance mPresent "u" [job0] 5 0 [result0] rfl

/-! ## C5 — every bonus is in [0, 0.30] -/

/-- C5: both bonus computations — the matcher's `_calculate_bonus_score`
(used by the ranking path) and the scraper's `_calculate_context_bonus` —
return a bonus score in [0, 0.30] for every input, regardless of how many
sub-bonuses fire. -/
theorem bonus_scores_bounded :
    (∀ (storage : String → Option Profile) (user_email : String) (job : Job) (now : ℚ),
        0 ≤ calculate_bonus_score storage user_email job now
          ∧ calculate_bonus_score storage user_email job now ≤ 3/10)
      ∧ (∀ (job_data : Job) (user_profile : Profile),
        0 ≤ calculate_context_bonus job_data user_profile
          ∧ calculate_context_bonus job_data user_profile ≤ 3/10) := by
  constructor
  · intro storage user_email job now
    unfold calculate_bonus_score
    cases hs : storage user_email with
    | none => norm_num
    | some profile =>
      simp only []
      constructor
      · refine le_min ?_ (by norm_num)
        split_ifs <;> norm_num
      · exact min_le_right _ _
  · intro job_data user_profile
    unfold calculate_context_bonus
    simp only []
    constructor
    · refine le_min ?_ (by norm_num)
      split_ifs <;> positivity
    · exact min_le_right _ _

/-! ## C6 — fallback similarity is Jaccard; self-similarity needs a non-stop-word token -/

/-- C6 counterexample: `"the"` is a non-empty string, yet the fallback
similarity of `"the"` with itself is 0, not 1.0 — its only token is a stop
word, so the filtered token sets are empty and `_calculate_keyword_similarity`
returns its guarded 0.0. -/
theorem fallback_self_similarity_zero_on_stopword_text :
    calculate_keyword_similarity "the" "the" = 0 ∧ ("the" : String) ≠ "" :=
  ⟨rfl, by decide⟩

/-- C6 amended: in fallback mode, `similarity(A, B)` equals the Jaccard
coefficient of the whitespace-tokenized, lowercased, stop-word-filtered
token sets of A and B (0.0 when the union is empty); and `similarity(A, A)`
equals 1.0 for every string A whose filtered token set is non-empty
(identical text consisting solely of stop words or whitespace gives 0.0). -/
theorem fallback_similarity_is_jaccard :
    (∀ a b : String,
        calculate_keyword_similarity a b = jaccardCoeff (text_tokens a) (text_tokens b))
      ∧ ∀ a : String, text_tokens a ≠ ∅ → calculate_keyword_similarity a a = 1 := by
  have hj : ∀ a b : String,
      calculate_keyword_similarity a b = jaccardCoeff (text_tokens a) (text_tokens b) := by
    intro a b
    unfold calculate_keyword_similarity jaccardCoeff
    simp only []
    rcases eq_or_ne (text_tokens a ∪ text_tokens b) ∅ with h | h
    · simp [h]
    · rw [if_pos (Finset.card_pos.mpr (Finset.nonempty_iff_ne_empty.mpr h)), if_neg h]
  refine ⟨hj, ?_⟩
  intro a ha
  rw [hj a a]
  unfold jaccardCoeff
  rw [Finset.union_self, Finset.inter_self, if_neg ha]
  have hcard : ((text_tokens a).card : ℚ) ≠ 0 := by
    exact_mod_cast fun h => ha (Finset.card_eq_zero.mp h)
  exact div_self hcard

theorem fallback_similarity_is_jaccard_witness :
    text_tokens "python" ≠ ∅ ∧ calculate_keyword_similarity "python" "python" = 1 :=
  ⟨by decide, fallback_similarity_is_jaccard.2 "python" (by decide)⟩

/-! ## C7 — the skill-overlap sub-bonus exists only in the scraper path -/

/-- C7 counterexample: the claim requires the skill-overlap sub-bonus
(+0.05/skill) in both bonus call paths, for every candidate scored by the
Ranker.  With exactly one overlapping skill and every other sub-bonus
condition false, the Ranker's `_calculate_bonus_score` returns 0 — it has no
skill-overlap term — while the scraper's `_calculate_context_bonus` on the
same data returns the claimed 0.05. -/
theorem ranker_bonus_ignores_skill_overlap :
    calculate_bonus_score (fun _ => some (skillProfile ["python"])) "u"
        (skillJob ["python"]) 0 = 0
      ∧ calculate_context_bonus (skillJob ["python"]) (skillProfile ["python"]) = 1/20 := by
  constructor
  · unfold calculate_bonus_score
    simp only [skillProfile, skillJob, List.any_nil]
    rw [if_neg (by decide : ¬ ("entry" : String) = "senior")]
    norm_num [min_def]
  · unfold calculate_context_bonus
    simp only [skillProfile, skillJob]
    rw [if_neg (by decide : ¬ ("entry" : String) = "senior")]
    norm_num [min_def]

/-- C7 amended: only the scraper's `_calculate_context_bonus` has the
skill-overlap sub-bonus: with all other sub-bonus conditions false it equals
`min(overlap * 0.05, 0.15)` — +0.05 per overlapping (lowercased) skill,
frozen at 0.15 from 3 overlapping skills on — whereas the Ranker's
`_calculate_bonus_score` is 0 on the same inputs whatever the overlap. -/
theorem skill_overlap_bonus_scraper_only (us js : List String) :
    (calculate_context_bonus (skillJob js) (skillProfile us)
        = min ((((us.map lowerStr).toFinset ∩ (js.map lowerStr).toFinset).card : ℚ)
            * (1/20)) (3/20))
      ∧ (3 ≤ ((us.map lowerStr).toFinset ∩ (js.map lowerStr).toFinset).card →
          calculate_context_bonus (skillJob js) (skillProfile us) = 3/20)
      ∧ (((us.map lowerStr).toFinset ∩ (js.map lowerStr).toFinset).card ≤ 3 →
          calculate_context_bonus (skillJob js) (skillProfile us)
            = (((us.map lowerStr).toFinset ∩ (js.map lowerStr).toFinset).card : ℚ)
                * (1/20))
      ∧ calculate_bonus_score (fun _ => some (skillProfile us)) "u" (skillJob js) 0 = 0 := by
  have hbase : calculate_context_bonus (skillJob js) (skillProfile us)
      = min ((((us.map lowerStr).toFinset ∩ (js.map lowerStr).toFinset).card : ℚ)
          * (1/20)) (3/20) := by
    unfold calculate_context_bonus
    simp only [skillJob, skillProfile, List.map_nil, List.toFinset_nil, Finset.filter_empty,
      Finset.card_empty]
    rw [if_neg (by decide : ¬ ("entry" : String) = "senior"),
      if_neg (show ¬ (false = true ∧ True) from by simp),
      if_neg (lt_irrefl 0)]
    simp only [zero_add, add_zero]
    rcases Nat.eq_zero_or_pos
        ((us.map lowerStr).toFinset ∩ (js.map lowerStr).toFinset).card with
      h0 | hpos
    · rw [h0, if_neg (lt_irrefl 0)]
      norm_num [min_def]
    · rw [if_pos hpos, min_eq_left (le_trans (min_le_right _ _) (by norm_num))]
  have hzero : calculate_bonus_score (fun _ => some (skillProfile us)) "u" (skillJob js) 0
      = 0 := by
    unfold calculate_bonus_score
    simp only [skillProfile, skillJob, List.any_nil]
    rw [if_neg (by decide : ¬ ("entry" : String) = "senior")]
    norm_num [min_def]
  refine ⟨hbase, ?_, ?_, hzero⟩
  · intro h3
    rw [hbase, min_eq_right]
    have h3q : (3 : ℚ)
        ≤ (((us.map lowerStr).toFinset ∩ (js.map lowerStr).toFinset).card : ℚ) :=
      by exact_mod_cast h3
    linarith
  · intro h3
    rw [hbase, min_eq_left]
    have h3q : ((((us.map lowerStr).toFinset ∩ (js.map lowerStr).toFinset).card : ℚ))
        ≤ 3 := by exact_mod_cast h3
    linarith

theorem skill_overlap_bonus_scraper_only_witness :
    3 ≤ (((["a", "b", "c", "d"].map lowerStr).toFinset
          ∩ (["a", "b", "c", "d"].map lowerStr).toFinset).card)
      ∧ calculate_context_bonus (skillJob ["a", "b", "c", "d"])
          (skillProfile ["a", "b", "c", "d"]) = 3/20 :=
  ⟨by decide,
   (skill_overlap_bonus_scraper_only ["a", "b", "c", "d"] ["a", "b", "c", "d"]).2.1 (by decide)⟩

/-! ## C8 — the Ranker's remote bonus ignores the experience level -/

/-- C8 counterexample: the claim says the remote sub-bonus is added exactly
when the job is remote and the profile is entry-level, so a remote job
matched against a senior profile should earn none of it.  With every other
sub-bonus condition false, the Ranker's `_calculate_bonus_score` still
returns 0.05 for that pairing: its remote bonus (line 264-265) does not
look at the experience level. -/
theorem ranker_remote_bonus_ignores_experience_level :
    calculate_bonus_score (fun _ => some (levelProfile "senior")) "u"
        (remoteJob true "entry") 0 = 1/20
      ∧ ((1 : ℚ)/20 ≠ 0) := by
  constructor
  · unfold calculate_bonus_score
    simp only [levelProfile, remoteJob, List.any_nil]
    rw [if_neg (by decide : ¬ ("senior" : String) = "entry")]
    norm_num [min_def]
  · norm_num

/-- C8 amended: with the other sub-bonuses disabled (distinct experience
levels, no skills, no domains, no timestamp), the scraper's
`_calculate_context_bonus` adds its +0.03 remote sub-bonus exactly when the
job is remote and the profile is entry-level, while the Ranker's
`_calculate_bonus_score` adds +0.05 whenever the job is remote, regardless
of the profile's experience level. -/
theorem remote_bonus_characterization (ul jl : String) (r : Bool) (h : ul ≠ jl) :
    calculate_context_bonus (remoteJob r jl) (levelProfile ul)
        = (if r = true ∧ ul = "entry" then 3/100 else 0)
      ∧ calculate_bonus_score (fun _ => some (levelProfile ul)) "u" (remoteJob r jl) 0
        = (if r = true then 1/20 else 0) := by
  constructor
  · unfold calculate_context_bonus
    simp only [remoteJob, levelProfile, List.map_nil, List.toFinset_nil, Finset.empty_inter,
      Finset.filter_empty, Finset.card_empty]
    rw [if_neg h]
    norm_num
    split_ifs <;> norm_num [min_def]
  · unfold calculate_bonus_score
    simp only [remoteJob, levelProfile, List.any_nil]
    rw [if_neg h]
    norm_num
    split_ifs <;> norm_num [min_def]

theorem remote_bonus_characterization_witness :
    ("senior" : String) ≠ "entry"
      ∧ calculate_context_bonus (remoteJob true "entry") (levelProfile "senior")
          = (if true = true ∧ ("senior" : String) = "entry" then 3/100 else 0)
      ∧ calculate_bonus_score (fun _ => some (levelProfile "senior")) "u"
          (remoteJob true "entry") 0 = (if true = true then 1/20 else 0) :=
  ⟨by decide,
   (remote_bonus_characterization "senior" "entry" true (by decide)).1,
   (remote_bonus_characterization "senior" "entry" true (by decide)).2⟩

/-! ## C10 — query bonus bounded by 0.25 and keyword-gated -/

theorem query_bonus_fold_le (table : List (String × ℚ)) (ql jt : String)
    (hp : ∀ kp ∈ table, 0 ≤ kp.2) :
    ∀ acc : ℚ, acc ≤ query_bonus_fold table ql jt acc := by
  induction table with
  | nil => intro acc; exact le_refl acc
  | cons kp rest ih =>
    intro acc
    have h0 : 0 ≤ kp.2 := hp kp (List.mem_cons_self kp rest)
    have hrest : ∀ q ∈ rest, 0 ≤ q.2 := fun q hq => hp q (List.mem_cons_of_mem kp hq)
    unfold query_bonus_fold
    simp only [List.foldl_cons]
    by_cases hc : substrOccurs kp.1 ql = true ∧ substrOccurs kp.1 jt = true
    · rw [if_pos hc]
      exact le_trans (by linarith) (ih hrest (acc + kp.2))
    · rw [if_neg hc]
      exact ih hrest acc

/-- C10: the query-search bonus `_calculate_query_bonus` always lies in
[0, 0.25] — a cap of 0.25, distinct from the 0.30 cap of the
profile-ranking bonus — and each keyword of the table contributes its
increment only when it occurs as a substring of both the lowercased query
and the lowercased projected job text: a keyword failing that conjunction
leaves the accumulated bonus unchanged. -/
theorem query_bonus_bounded_and_keyword_gated :
    (∀ (query : String) (job : Job),
        0 ≤ calculate_query_bonus query job ∧ calculate_query_bonus query job ≤ 1/4)
      ∧ (∀ (kw : String) (pts : ℚ) (rest : List (String × ℚ)) (ql jt : String) (acc : ℚ),
          ¬ (substrOccurs kw ql = true ∧ substrOccurs kw jt = true) →
          query_bonus_fold ((kw, pts) :: rest) ql jt acc = query_bonus_fold rest ql jt acc) := by
  constructor
  · intro query job
    constructor
    · refine le_min ?_ (by norm_num)
      refine query_bonus_fold_le query_keywords _ _ ?_ 0
      intro kp hkp
      fin_cases hkp <;> norm_num
    · exact min_le_right _ _
  · intro kw pts rest ql jt acc hc
    unfold query_bonus_fold
    rw [List.foldl_cons, if_neg hc]

theorem query_bonus_keyword_gated_witness :
    ¬ (substrOccurs "intern" "nope" = true ∧ substrOccurs "intern" "nope" = true)
      ∧ query_bonus_fold [("intern", (1 : ℚ)/10)] "nope" "nope" 0
          = query_bonus_fold [] "nope" "nope" 0 :=
  ⟨by decide,
   query_bonus_bounded_and_keyword_gated.2 "intern" (1/10) [] "nope" "nope" 0 (by decide)⟩

end SJM
